import Mathlib

/-!
# eks-anywhere: the tunnel proxy of `pkg/files/reader_test.go`, the health checks of
# `pkg/clusterapi/machine_health_check.go`, and the `files.Reader` contract

Go values are embedded as follows.

* `map[string]V` is an association list with at most one entry per key; reading a missing
  key of a `map[string]int` yields `0`.
* `int` is a mathematical integer wrapped to 64-bit two's complement after every addition.
* A handler that writes to an `http.ResponseWriter`, dials and hijacks returns the new proxy
  state together with the list of effects it performed, in program order.
* Strings are lists of characters; the library checks embedded here look only at ASCII
  characters, on which characters and bytes agree.
-/

namespace EksAnywhere

/-! ## Go maps and integers -/

/-- Comma-ok read `v, ok := m[k]` of a Go map. -/
def mapLookup {V : Type} : List (String × V) → String → Option V
  | [], _ => none
  | (k', v) :: rest, k => if k' = k then some v else mapLookup rest k

/-- Plain read `m[k]` of a Go `map[string]int`: the zero value when the key is missing. -/
def mapIndex (m : List (String × Int)) (k : String) : Int :=
  match mapLookup m k with
  | some v => v
  | none => 0

/-- Assignment `m[k] = v` of a Go map: overwrite the entry of `k`, or add one. -/
def mapAssign {V : Type} : List (String × V) → String → V → List (String × V)
  | [], k, v => [(k, v)]
  | (k', v') :: rest, k, v =>
    if k' = k then (k, v) :: rest else (k', v') :: mapAssign rest k v

/-- Smallest value of Go's `int` on a 64-bit platform. -/
def minInt : Int := -(2 ^ 63)

/-- Largest value of Go's `int` on a 64-bit platform. -/
def maxInt : Int := 2 ^ 63 - 1

/-- Result of a Go `int` operation whose mathematical value is `x`: two's complement wrap. -/
def wrapInt (x : Int) : Int := (x + 2 ^ 63) % 2 ^ 64 - 2 ^ 63

/-! ## The tunnel proxy (`reader_test.go`) -/

/-- Constant `http.MethodConnect`. -/
def MethodConnect : String := "CONNECT"

/-- Constant `http.StatusOK`. -/
def StatusOK : Nat := 200

/-- Constant `http.StatusMethodNotAllowed`. -/
def StatusMethodNotAllowed : Nat := 405

/-- Constant `http.StatusInternalServerError`. -/
def StatusInternalServerError : Nat := 500

/-- Constant `http.StatusServiceUnavailable`. -/
def StatusServiceUnavailable : Nat := 503

/-- Struct `proxy`; the embedded mutex guards `proxied` and has no sequential content. -/
structure proxy where
  proxied : List (String × Int)
  hostMappings : List (String × String)

/-- The fields of `*http.Request` the handlers read. -/
structure Request where
  Method : String
  Host : String

/-- What the collaborators of one handler call answer: `net.DialTimeout` (an error text or
success), whether the response writer is an `http.Hijacker`, and what `Hijack()` returns
(an error text or success). -/
structure Peer where
  dial : String → Option String
  hijacker : Bool
  hijack : Option String

/-- Observable steps of a handler call. -/
inductive Effect where
  | dial (host : String)
  | httpError (msg : String) (code : Nat)
  | writeHeader (code : Nat)
  | hijack
  | countRequest (host : String)
  | relay (host : String) (clientConn : Bool)
  | closeConns
  deriving DecidableEq

/-- Function `newProxy`. -/
def newProxy (hostMappings : List (String × String)) : proxy :=
  { proxied := [], hostMappings := hostMappings }

/-- Method `countRequest`: `p.proxied[host] = p.proxied[host] + 1`. -/
def proxy.countRequest (p : proxy) (host : String) : proxy :=
  { p with proxied := mapAssign p.proxied host (wrapInt (mapIndex p.proxied host + 1)) }

/-- Method `countForHost`: `p.proxied[host]`. -/
def proxy.countForHost (p : proxy) (host : String) : Int :=
  mapIndex p.proxied host

/-- Method `tunnelConnection`. The two copying goroutines and the wait are the effect
`relay`, which records whether `clientConn` is a connection (`true`) or the nil value left
by a failed `Hijack` (`false`); the two `Close` calls are the effect `closeConns`, reached
only when both connections exist. -/
def proxy.tunnelConnection (p : proxy) (w : Peer) (r : Request) : proxy × List Effect :=
  let host :=
    match mapLookup p.hostMappings r.Host with
    | some mappedDstHost => mappedDstHost
    | none => r.Host
  match w.dial host with
  | some err => (p, [Effect.dial host, Effect.httpError err StatusServiceUnavailable])
  | none =>
    if w.hijacker = false then
      (p, [Effect.dial host, Effect.writeHeader StatusOK,
           Effect.httpError "Hijacking is not supported" StatusInternalServerError])
    else
      let reported : List Effect :=
        match w.hijack with
        | some err => [Effect.httpError err StatusServiceUnavailable]
        | none => []
      let relayed : List Effect :=
        match w.hijack with
        | some _ => [Effect.relay host false]
        | none => [Effect.relay host true, Effect.closeConns]
      (p.countRequest host,
        [Effect.dial host, Effect.writeHeader StatusOK, Effect.hijack] ++ reported ++
          [Effect.countRequest host] ++ relayed)

/-- The resolved host in the words of the specification: the mapping of the requested host
when the mapping table has it as a key, the requested host itself otherwise. -/
def proxy.resolveHost (p : proxy) (r : Request) : String :=
  (mapLookup p.hostMappings r.Host).getD r.Host

/-- Method `handleProxy`. -/
def proxy.handleProxy (p : proxy) (w : Peer) (r : Request) : proxy × List Effect :=
  if r.Method = MethodConnect then
    p.tunnelConnection w r
  else
    (p, [Effect.httpError "Only supports CONNECT" StatusMethodNotAllowed])

/-- A connection counts as successfully tunnelled when the dial succeeds, the response
writer supports hijacking and the hijack succeeds. -/
def tunnelled (p : proxy) (w : Peer) (r : Request) : Bool :=
  (w.dial (p.resolveHost r)).isNone && w.hijacker && w.hijack.isNone

/-- Whether an effect is a dial or a hijack, the two steps only `tunnelConnection` takes. -/
def Effect.entersTunnel : Effect → Bool
  | Effect.dial _ => true
  | Effect.hijack => true
  | _ => false

/-! ## Health checks (`machine_health_check.go`) -/

/-- Value of a run of ASCII decimal digits read left to right from `acc`, or `none` at
the first character that is not a digit. -/
def digitsValue : List Char → Nat → Option Nat
  | [], acc => some acc
  | c :: cs, acc =>
    if c.isDigit then digitsValue cs (acc * 10 + (c.toNat - '0'.toNat)) else none

/-- Library function `strconv.Atoi`: an optional sign, then one or more decimal digits, the
value within the range of `int`; `none` is the error result. -/
def strconv.Atoi (s : String) : Option Int :=
  match s.toList with
  | [] => none
  | c :: cs =>
    let digits := if c = '-' ∨ c = '+' then cs else c :: cs
    if digits.isEmpty then none
    else
      match digitsValue digits 0 with
      | none => none
      | some n =>
        let v : Int := if c = '-' then -(n : Int) else (n : Int)
        if minInt ≤ v ∧ v ≤ maxInt then some v else none

/-- Library type `intstr.Type`. -/
inductive intstr.«Type» where
  | Int
  | String
  deriving DecidableEq

/-- Library type `intstr.IntOrString`. -/
structure intstr.IntOrString where
  «Type» : intstr.«Type»
  IntVal : Int
  StrVal : String
  deriving DecidableEq

/-- Library function `intstr.FromInt`: the value converted to `int32`. -/
def intstr.FromInt (val : Int) : intstr.IntOrString :=
  { «Type» := intstr.«Type».Int, IntVal := (val + 2 ^ 31) % 2 ^ 32 - 2 ^ 31, StrVal := "" }

/-- Library function `intstr.FromString`. -/
def intstr.FromString (val : String) : intstr.IntOrString :=
  { «Type» := intstr.«Type».String, IntVal := 0, StrVal := val }

/-- Library function `intstr.Parse`: an integer when `strconv.Atoi` accepts the string,
the string itself otherwise. -/
def intstr.Parse (val : String) : intstr.IntOrString :=
  match strconv.Atoi val with
  | none => intstr.FromString val
  | some i => intstr.FromInt i

/-- Constant `corev1.NodeReady`. -/
def corev1.NodeReady : String := "Ready"

/-- Constant `corev1.ConditionUnknown`. -/
def corev1.ConditionUnknown : String := "Unknown"

/-- Constant `corev1.ConditionFalse`. -/
def corev1.ConditionFalse : String := "False"

/-- A `time.Duration`, in nanoseconds; `metav1.Duration` wraps one. -/
abbrev Duration := Int

/-- Struct `metav1.TypeMeta`. -/
structure TypeMeta where
  APIVersion : String
  Kind : String
  deriving DecidableEq

/-- The fields of `metav1.ObjectMeta` the builders set. -/
structure ObjectMeta where
  Name : String
  Namespace : String
  deriving DecidableEq

/-- The field of `metav1.LabelSelector` the builders set. -/
structure LabelSelector where
  MatchLabels : List (String × String)
  deriving DecidableEq

/-- Struct `clusterv1.UnhealthyCondition`. -/
structure UnhealthyCondition where
  «Type» : String
  Status : String
  Timeout : Duration
  deriving DecidableEq

/-- The fields of `clusterv1.MachineHealthCheckSpec` the builders set; the two pointer
fields are `none` when nil. -/
structure MachineHealthCheckSpec where
  ClusterName : String
  Selector : LabelSelector
  NodeStartupTimeout : Option Duration
  UnhealthyConditions : List UnhealthyCondition
  MaxUnhealthy : Option intstr.IntOrString
  deriving DecidableEq

/-- Struct `clusterv1.MachineHealthCheck`. -/
structure MachineHealthCheck where
  TypeMeta : TypeMeta
  ObjectMeta : ObjectMeta
  Spec : MachineHealthCheckSpec
  deriving DecidableEq

/-- A `kubernetes.Object`; the only objects built here are health checks. -/
abbrev Object := MachineHealthCheck

/-- A worker node group of `v1alpha1.Cluster`, by its name. -/
structure WorkerNodeGroupConfiguration where
  Name : String
  deriving DecidableEq

/-- The part of `v1alpha1.ClusterSpec` the builders read. -/
structure ClusterSpec where
  WorkerNodeGroupConfigurations : List WorkerNodeGroupConfiguration
  deriving DecidableEq

/-- The part of `v1alpha1.Cluster` the builders read. -/
structure Cluster where
  Name : String
  Spec : ClusterSpec
  deriving DecidableEq

/-- Constants and naming helpers that `machine_health_check.go` uses and that are declared
in other files: the package constant `clusterAPIVersion`, `constants.EksaSystemNamespace`,
the two `clusterv1` label keys, and the package functions that name objects. -/
structure Deps where
  clusterAPIVersion : String
  EksaSystemNamespace : String
  MachineControlPlaneLabel : String
  MachineDeploymentNameLabel : String
  ClusterName : Cluster → String
  ControlPlaneMachineHealthCheckName : Cluster → String
  WorkerMachineHealthCheckName : Cluster → WorkerNodeGroupConfiguration → String
  MachineDeploymentName : Cluster → WorkerNodeGroupConfiguration → String

/-- Constant `machineHealthCheckKind`. -/
def machineHealthCheckKind : String := "MachineHealthCheck"

/-- Constant `maxUnhealthyControlPlane`. -/
def maxUnhealthyControlPlane : String := "100%"

/-- Constant `maxUnhealthyWorker`. -/
def maxUnhealthyWorker : String := "40%"

/-- Method `SetName` of a health check. -/
def MachineHealthCheck.SetName (mhc : MachineHealthCheck) (name : String) :
    MachineHealthCheck :=
  { mhc with ObjectMeta := { mhc.ObjectMeta with Name := name } }

/-- Statement `mhc.Spec.Selector.MatchLabels[key] = value`. -/
def MachineHealthCheck.setMatchLabel (mhc : MachineHealthCheck) (key value : String) :
    MachineHealthCheck :=
  { mhc with Spec := { mhc.Spec with
      Selector := { MatchLabels := mapAssign mhc.Spec.Selector.MatchLabels key value } } }

/-- Statement `mhc.Spec.MaxUnhealthy = &maxUnhealthy`. -/
def MachineHealthCheck.setMaxUnhealthy (mhc : MachineHealthCheck)
    (maxUnhealthy : intstr.IntOrString) : MachineHealthCheck :=
  { mhc with Spec := { mhc.Spec with MaxUnhealthy := some maxUnhealthy } }

/-- Function `machineHealthCheck`. -/
def machineHealthCheck (d : Deps) (clusterName : String)
    (unhealthyTimeout nodeStartupTimeout : Duration) : MachineHealthCheck :=
  { TypeMeta := { APIVersion := d.clusterAPIVersion, Kind := machineHealthCheckKind },
    ObjectMeta := { Name := clusterName, Namespace := d.EksaSystemNamespace },
    Spec :=
      { ClusterName := clusterName,
        Selector := { MatchLabels := [] },
        NodeStartupTimeout := some nodeStartupTimeout,
        UnhealthyConditions :=
          [ { «Type» := corev1.NodeReady, Status := corev1.ConditionUnknown,
              Timeout := unhealthyTimeout },
            { «Type» := corev1.NodeReady, Status := corev1.ConditionFalse,
              Timeout := unhealthyTimeout } ],
        MaxUnhealthy := none } }

/-- Function `MachineHealthCheckForControlPlane`. -/
def MachineHealthCheckForControlPlane (d : Deps) (cluster : Cluster)
    (unhealthyTimeout nodeStartupTimeout : Duration) : MachineHealthCheck :=
  let mhc := machineHealthCheck d (d.ClusterName cluster) unhealthyTimeout nodeStartupTimeout
  let mhc := mhc.SetName (d.ControlPlaneMachineHealthCheckName cluster)
  let mhc := mhc.setMatchLabel d.MachineControlPlaneLabel ""
  let maxUnhealthy := intstr.Parse maxUnhealthyControlPlane
  mhc.setMaxUnhealthy maxUnhealthy

/-- Function `machineHealthCheckForWorker`. -/
def machineHealthCheckForWorker (d : Deps) (cluster : Cluster)
    (workerNodeGroupConfig : WorkerNodeGroupConfiguration)
    (unhealthyTimeout nodeStartupTimeout : Duration) : MachineHealthCheck :=
  let mhc := machineHealthCheck d (d.ClusterName cluster) unhealthyTimeout nodeStartupTimeout
  let mhc := mhc.SetName (d.WorkerMachineHealthCheckName cluster workerNodeGroupConfig)
  let mhc := mhc.setMatchLabel d.MachineDeploymentNameLabel
    (d.MachineDeploymentName cluster workerNodeGroupConfig)
  let maxUnhealthy := intstr.Parse maxUnhealthyWorker
  mhc.setMaxUnhealthy maxUnhealthy

/-- Function `MachineHealthCheckForWorkers`: the loop appends one health check per worker
node group to an empty slice. -/
def MachineHealthCheckForWorkers (d : Deps) (cluster : Cluster)
    (unhealthyTimeout nodeStartupTimeout : Duration) : List MachineHealthCheck :=
  cluster.Spec.WorkerNodeGroupConfigurations.foldl
    (fun m workerNodeGroupConfig =>
      m ++ [machineHealthCheckForWorker d cluster workerNodeGroupConfig
        unhealthyTimeout nodeStartupTimeout])
    []

/-- Function `MachineHealthCheckObjects`: the loop copies the worker health checks into an
empty slice, to which the control plane health check is appended. -/
def MachineHealthCheckObjects (d : Deps) (cluster : Cluster)
    (unhealthyTimeout nodeStartupTimeout : Duration) : List Object :=
  let mhcWorkers := MachineHealthCheckForWorkers d cluster unhealthyTimeout nodeStartupTimeout
  let o : List Object := mhcWorkers.foldl (fun o item => o ++ [item]) []
  o ++ [MachineHealthCheckForControlPlane d cluster unhealthyTimeout nodeStartupTimeout]

/-- Sample values for the names declared outside `machine_health_check.go`. -/
def sampleDeps : Deps :=
  { clusterAPIVersion := "cluster.x-k8s.io/v1beta1",
    EksaSystemNamespace := "eksa-system",
    MachineControlPlaneLabel := "cluster.x-k8s.io/control-plane",
    MachineDeploymentNameLabel := "cluster.x-k8s.io/deployment-name",
    ClusterName := fun c => c.Name,
    ControlPlaneMachineHealthCheckName := fun c => c.Name ++ "-kcp-unhealthy",
    WorkerMachineHealthCheckName := fun c g => c.Name ++ "-" ++ g.Name ++ "-worker-unhealthy",
    MachineDeploymentName := fun c g => c.Name ++ "-" ++ g.Name }

/-- A sample cluster with two worker node groups. -/
def sampleCluster : Cluster :=
  { Name := "test", Spec := { WorkerNodeGroupConfigurations := [{ Name := "md-0" }, { Name := "md-1" }] } }

/-! ## The Reader (`files.Reader`)

The test file `reader_test.go` calls `files.NewReader`, its options and `ReadFile`; their
source is not part of the sources at hand, so this section follows the specification. URI
syntax is the one of the Go standard library parser `net/url.Parse`, which `reader_test.go`
itself uses on URLs, and the bundled filesystem is the `embed.FS` that the test hands to
`files.WithEmbedFS`. -/

/-- Raw file content. -/
abbrev Bytes := List (Fin 256)

/-- A trusted root certificate, by an identifier. -/
abbrev Certificate := Nat

/-- Modelled from the spec: the error kinds of `ReadFile` (section 7), whose source is
missing. -/
inductive ReadError where
  | MalformedURI
  | NotFound
  | AccessDenied
  | UnsupportedSource
  | RemoteFetchFailed (status : Nat)
  | TransportError
  | ConfigurationError
  deriving DecidableEq

/-- Modelled from the spec: the proxy policy of a Reader (section 3), whose source is
missing: cached resolution by default, or resolution on every request. -/
inductive ProxyPolicy where
  | cached
  | nonCached
  deriving DecidableEq

/-- Whether a character may occur in the name of an embedded file: the `go:embed` rules
exclude the double quote, star, angle brackets, question mark, backquote, single quote,
bar, backslash and colon; the slash only separates path elements. -/
def embedNameChar (c : Char) : Bool :=
  !([34, 42, 60, 62, 63, 96, 39, 124, 92, 58].contains c.toNat)

/-- The element loop of library function `fs.ValidPath`: every slash-separated element,
`elem` being the one read so far, is neither empty nor `.` nor `..`. -/
def validElems : List Char → List Char → Bool
  | elem, [] => !elem.isEmpty && elem != ['.'] && elem != ['.', '.']
  | elem, c :: cs =>
    if c = '/' then (!elem.isEmpty && elem != ['.'] && elem != ['.', '.']) && validElems [] cs
    else validElems (elem ++ [c]) cs

/-- Whether a name can be that of a file in an `embed.FS`: an unrooted slash-separated
path in the sense of `fs.ValidPath` whose characters the `go:embed` rules admit. -/
def validEmbedName (name : String) : Bool :=
  validElems [] name.toList && name.toList.all embedNameChar

/-- Library type `embed.FS`, the bundled filesystem of the specification (section 3): a
read-only lookup from name to content, all of whose names are names of embedded files. -/
structure EmbedFS where
  files : String → Option Bytes
  valid : ∀ (name : String) (content : Bytes),
    files name = some content → validEmbedName name = true

/-- Modelled from the spec: the Reader value (section 3), whose source is missing: trusted
roots, the optional bundled filesystem and the proxy policy. -/
structure Reader where
  trustedRoots : List Certificate
  bundledFS : Option EmbedFS
  proxyPolicy : ProxyPolicy

/-- Modelled from the spec: the construction options of a Reader (section 4.1), whose
source is missing. -/
inductive ReaderOption where
  | WithEmbedFS (fs : EmbedFS)
  | WithRootCACerts (certs : List Certificate)
  | WithNonCachedProxyConfig

/-- Modelled from the spec: whether an option is the embedded-filesystem option; the
options' source is missing. -/
def ReaderOption.isEmbedFS : ReaderOption → Bool
  | ReaderOption.WithEmbedFS _ => true
  | _ => false

/-- Modelled from the spec: the effect of one option on the configuration (section 4.1),
whose source is missing: set the bundled filesystem, append trusted roots, or force
non-cached proxy resolution. -/
def ReaderOption.applyTo (r : Reader) : ReaderOption → Reader
  | ReaderOption.WithEmbedFS fs => { r with bundledFS := some fs }
  | ReaderOption.WithRootCACerts certs => { r with trustedRoots := r.trustedRoots ++ certs }
  | ReaderOption.WithNonCachedProxyConfig => { r with proxyPolicy := ProxyPolicy.nonCached }

/-- Modelled from the spec: `NewReader` (section 4.1), whose source is missing: the options
applied in order to a configuration with no trusted roots, no bundled filesystem and cached
proxy resolution. -/
def NewReader (opts : List ReaderOption) : Reader :=
  opts.foldl ReaderOption.applyTo
    { trustedRoots := [], bundledFS := none, proxyPolicy := ProxyPolicy.cached }

/-- Modelled from the spec: what the local strategy of `ReadFile` (section 4.2), whose
source is missing, finds at a path: a readable file, nothing, or something the caller may
not read. -/
inductive LocalEntry where
  | file (content : Bytes)
  | missing
  | denied
  deriving DecidableEq

/-- Modelled from the spec: the outcome of the HTTP GET of the network strategy (section
4.2), whose source is missing: a response with its status and its body (`none` when
reading the body failed), or a transport-level failure. -/
inductive HttpResult where
  | response (status : Nat) (body : Option Bytes)
  | transportFailure
  deriving DecidableEq

/-- Modelled from the spec: the surroundings a `ReadFile` call, whose source is missing,
reads from: the local filesystem, and the network as seen through a client with the given
trusted roots and proxy policy. -/
structure World where
  localFS : String → LocalEntry
  httpGet : List Certificate → ProxyPolicy → String → HttpResult

/-- Modelled from the spec: a parsed retrieval request (section 3), whose source is
missing: its scheme in lower case (empty when there is none) and what follows the scheme
and its colon (the whole string when there is no scheme). -/
structure URI where
  scheme : String
  rest : String
  deriving DecidableEq

/-- Library function `net/url.stringContainsCTLByte`, on one character: an ASCII control
character. -/
def isCTL (c : Char) : Bool := c.toNat < 0x20 || c.toNat == 0x7f

/-- Library function `net/url.ishex`. -/
def ishex (c : Char) : Bool :=
  c.isDigit || ('a'.toNat ≤ c.toNat && c.toNat ≤ 'f'.toNat) ||
    ('A'.toNat ≤ c.toNat && c.toNat ≤ 'F'.toNat)

/-- Library function `net/url.unhex`. -/
def unhex (c : Char) : Nat :=
  if c.isDigit then c.toNat - '0'.toNat
  else if 'a'.toNat ≤ c.toNat && c.toNat ≤ 'f'.toNat then c.toNat - 'a'.toNat + 10
  else if 'A'.toNat ≤ c.toNat && c.toNat ≤ 'F'.toNat then c.toNat - 'A'.toNat + 10
  else 0

/-- Whether library function `net/url.unescape` accepts a path, a fragment or user
information: every percent sign is followed by two hexadecimal digits. -/
def validEscapes : List Char → Bool
  | [] => true
  | c :: rest =>
    if c = '%' then
      match rest with
      | a :: b :: rest' => ishex a && ishex b && validEscapes rest'
      | _ => false
    else validEscapes rest

/-- Library function `net/url.shouldEscape` in host mode: letters, digits and the listed
punctuation may stand unescaped in a host. -/
def shouldEscapeHost (c : Char) : Bool :=
  !(c.isAlphanum || "!$&()*+,;=:[]<>-_.~".toList.contains c || c.toNat == 39 ||
    c.toNat == 34)

/-- Whether library function `net/url.unescape` accepts a host: an escape is two
hexadecimal digits and, unless it is `%25`, does not encode an ASCII byte; an ASCII
character standing for itself is one a host may hold. -/
def validHostText : List Char → Bool
  | [] => true
  | c :: rest =>
    if c = '%' then
      match rest with
      | a :: b :: rest' =>
        ishex a && ishex b && (!(unhex a < 8) || (a == '2' && b == '5')) && validHostText rest'
      | _ => false
    else (!(c.toNat < 0x80) || !shouldEscapeHost c) && validHostText rest

/-- Whether library function `net/url.unescape` accepts the zone of an IPv6 literal: an
escape is two hexadecimal digits and encodes `%25`, a space or a character a host may
hold; an ASCII character standing for itself is one a host may hold. -/
def validZoneText : List Char → Bool
  | [] => true
  | c :: rest =>
    if c = '%' then
      match rest with
      | a :: b :: rest' =>
        ishex a && ishex b &&
          ((a == '2' && b == '5') || unhex a * 16 + unhex b == 0x20 ||
            !shouldEscapeHost (Char.ofNat (unhex a * 16 + unhex b))) &&
          validZoneText rest'
      | _ => false
    else (!(c.toNat < 0x80) || !shouldEscapeHost c) && validZoneText rest

/-- Library function `net/url.validOptionalPort`: nothing, or a colon followed by
decimal digits. -/
def validOptionalPort : List Char → Bool
  | [] => true
  | c :: digits => c == ':' && digits.all Char.isDigit

/-- Library function `net/url.validUserinfo`. -/
def validUserinfo (s : List Char) : Bool :=
  s.all (fun r => r.isAlphanum || "-._:~!$&()*+,;=%@".toList.contains r || r.toNat == 39)

/-- Library function `strings.LastIndex` for a one-character pattern. -/
def lastIndex (c : Char) (s : List Char) : Option Nat :=
  let after := s.reverse.takeWhile (fun x => x != c)
  if after.length < s.length then some (s.length - 1 - after.length) else none

/-- Library function `strings.Index` for the pattern `%25`. -/
def indexPercent25 : List Char → Option Nat
  | [] => none
  | c :: rest =>
    if (c :: rest).take 3 == ['%', '2', '5'] then some 0
    else (indexPercent25 rest).map (fun i => i + 1)

/-- Whether library function `net/url.parseHost` accepts a host: a bracketed IP literal
is closed, followed by an optional port, and its zone, introduced by `%25`, is checked as
a zone; any other host has an optional port after its last colon; the text is host text. -/
def parseHost (host : List Char) : Bool :=
  if host.head? == some '[' then
    match lastIndex ']' host with
    | none => false
    | some i =>
      if !validOptionalPort (host.drop (i + 1)) then false
      else
        match indexPercent25 (host.take i) with
        | some zone =>
          validHostText (host.take zone) && validZoneText ((host.take i).drop zone) &&
            validHostText (host.drop i)
        | none => validHostText host
  else
    match lastIndex ':' host with
    | some i => validOptionalPort (host.drop i) && validHostText host
    | none => validHostText host

/-- Whether library function `net/url.parseAuthority` accepts an authority: the host
after the last `@` is accepted, and the user information before it is valid and well
escaped, as a whole or as user name and password. -/
def parseAuthority (authority : List Char) : Bool :=
  match lastIndex '@' authority with
  | none => parseHost authority
  | some i =>
    let userinfo := authority.take i
    parseHost (authority.drop (i + 1)) && validUserinfo userinfo &&
      (if userinfo.contains ':' then
        validEscapes (userinfo.takeWhile (fun x => x != ':')) &&
          validEscapes ((userinfo.dropWhile (fun x => x != ':')).drop 1)
      else validEscapes userinfo)

/-- The loop of library function `net/url.getScheme`, `seen` being the characters read so
far: the scheme and what follows its colon, no scheme with the whole string, or `none`
for the error of a missing scheme. -/
def getSchemeFrom (rawURL : List Char) : List Char → List Char → Option (List Char × List Char)
  | _, [] => some ([], rawURL)
  | seen, c :: cs =>
    if c.isAlpha then getSchemeFrom rawURL (seen ++ [c]) cs
    else if c.isDigit || c == '+' || c == '-' || c == '.' then
      if seen.isEmpty then some ([], rawURL) else getSchemeFrom rawURL (seen ++ [c]) cs
    else if c == ':' then
      if seen.isEmpty then none else some (seen, cs)
    else some ([], rawURL)

/-- Library function `net/url.getScheme`. -/
def getScheme (rawURL : List Char) : Option (List Char × List Char) :=
  getSchemeFrom rawURL [] rawURL

/-- The end of library function `net/url.parse`: an authority, when the text after the
scheme and before the query starts with two slashes (and, without a scheme, not with
three), is accepted and followed by a well-escaped path; otherwise that text is a
well-escaped path. -/
def parseTail (scheme rest : List Char) : Bool :=
  if (!scheme.isEmpty || !(rest.take 3 == ['/', '/', '/'])) && rest.take 2 == ['/', '/'] then
    parseAuthority ((rest.drop 2).takeWhile (fun x => x != '/')) &&
      validEscapes ((rest.drop 2).dropWhile (fun x => x != '/'))
  else validEscapes rest

/-- Library function `net/url.parse` on a URL without its fragment: the scheme on
success, `none` on error. Errors are a control character, a missing scheme, a colon in
the first path segment of a URL without scheme, a rejected authority and a badly escaped
path; a rootless path after a scheme is opaque and is not checked. -/
def parseNoFragment (u : List Char) : Option (List Char) :=
  if u.any isCTL then none
  else if u == ['*'] then some []
  else
    match getScheme u with
    | none => none
    | some (scheme, afterScheme) =>
      let rest := afterScheme.takeWhile (fun x => x != '?')
      if rest.head? != some '/' then
        if !scheme.isEmpty then some scheme
        else if (rest.takeWhile (fun x => x != '/')).contains ':' then none
        else if parseTail scheme rest then some scheme else none
      else if parseTail scheme rest then some scheme else none

/-- Modelled from the spec: step 1 of `ReadFile` (section 4.2), whose source is missing:
the URI is parsed, and malformed URI syntax is a failure (`none`). The syntax is that of
library function `net/url.Parse`: the text before the first `#` is parsed as a URL and the
fragment after it must be well escaped; the scheme is put in lower case. -/
def parseURI (uri : String) : Option URI :=
  match parseNoFragment (uri.toList.takeWhile (fun x => x != '#')) with
  | none => none
  | some scheme =>
    if validEscapes ((uri.toList.dropWhile (fun x => x != '#')).drop 1) then
      some { scheme := String.mk (scheme.map Char.toLower),
             rest := String.mk
               (if scheme.isEmpty then uri.toList else uri.toList.drop (scheme.length + 1)) }
    else none

/-- Modelled from the spec: the relative path of an embed URI (section 4.2), whose source
is missing: the scheme is stripped, then the leading path separators. -/
def embedPath (u : URI) : String :=
  String.mk (u.rest.toList.dropWhile (fun c => c == '/'))

/-- Modelled from the spec: `ReadFile` (section 4.2), whose source is missing. Parse, then
dispatch on the scheme: `embed` reads the bundled filesystem, `http` and `https` fetch
over the network, anything else reads the whole string as a local path. -/
def ReadFile (r : Reader) (w : World) (uri : String) : Except ReadError Bytes :=
  match parseURI uri with
  | none => Except.error ReadError.MalformedURI
  | some u =>
    if u.scheme = "embed" then
      match r.bundledFS with
      | none => Except.error ReadError.UnsupportedSource
      | some fs =>
        match fs.files (embedPath u) with
        | none => Except.error ReadError.NotFound
        | some content => Except.ok content
    else if u.scheme = "http" ∨ u.scheme = "https" then
      match w.httpGet r.trustedRoots r.proxyPolicy uri with
      | HttpResult.transportFailure => Except.error ReadError.TransportError
      | HttpResult.response status body =>
        if 200 ≤ status ∧ status < 300 then
          match body with
          | none => Except.error ReadError.TransportError
          | some content => Except.ok content
        else Except.error (ReadError.RemoteFetchFailed status)
    else
      match w.localFS uri with
      | LocalEntry.file content => Except.ok content
      | LocalEntry.missing => Except.error ReadError.NotFound
      | LocalEntry.denied => Except.error ReadError.AccessDenied

/-- The bytes a `ReadFile` call returned, if any. -/
def bytesOf (res : Except ReadError Bytes) : Option Bytes :=
  match res with
  | Except.ok content => some content
  | Except.error _ => none

/-- A world with an empty local filesystem and an unreachable network. -/
def emptyWorld : World :=
  { localFS := fun _ => LocalEntry.missing,
    httpGet := fun _ _ _ => HttpResult.transportFailure }

/-- A lookup that holds `content` at `path` and nothing else. -/
def singleFile (path : String) (content : Bytes) : String → Option Bytes :=
  fun q => if q = path then some content else none

/-- A world whose local filesystem is `fs` and whose network is unreachable. -/
def localWorld (fs : String → Option Bytes) : World :=
  { localFS := fun q =>
      match fs q with
      | some content => LocalEntry.file content
      | none => LocalEntry.missing,
    httpGet := fun _ _ _ => HttpResult.transportFailure }

/-- A bundled filesystem that holds `content` at the embedded-file name `path` and nothing
else. -/
def embedSingle (path : String) (content : Bytes) (hpath : validEmbedName path = true) :
    EmbedFS :=
  { files := singleFile path content,
    valid := fun name c hc => by
      unfold singleFile at hc
      by_cases hq : name = path
      · rw [hq]
        exact hpath
      · rw [if_neg hq] at hc
        cases hc }

/-- A bundled filesystem like the one of the success test: a file `testdata/file.yaml`,
here with sample bytes. -/
def sampleEmbedFS : EmbedFS := embedSingle "testdata/file.yaml" [1, 2, 3] (by decide)

/-- A bundled filesystem holding a file whose name has a percent sign that starts no
escape. -/
def percentFS : EmbedFS := embedSingle "testdata/100%.yaml" [1, 2, 3] (by decide)

/-! ## Theorems -/

/-! ### Go maps and integers -/

theorem mapLookup_mapAssign_same {V : Type} (m : List (String × V)) (k : String) (v : V) :
    mapLookup (mapAssign m k v) k = some v := by
  induction m with
  | nil => simp [mapAssign, mapLookup]
  | cons e rest ih =>
    obtain ⟨k', v'⟩ := e
    by_cases hk : k' = k
    · simp [mapAssign, mapLookup, hk]
    · simp [mapAssign, mapLookup, hk, ih]

theorem mapLookup_mapAssign_other {V : Type} (m : List (String × V)) (k k0 : String) (v : V)
    (hne : k0 ≠ k) : mapLookup (mapAssign m k v) k0 = mapLookup m k0 := by
  induction m with
  | nil => simp [mapAssign, mapLookup, Ne.symm hne]
  | cons e rest ih =>
    obtain ⟨k', v'⟩ := e
    by_cases hk : k' = k
    · subst hk
      simp [mapAssign, mapLookup, Ne.symm hne]
    · by_cases hk0 : k' = k0
      · subst hk0
        simp [mapAssign, mapLookup, hk]
      · simp [mapAssign, mapLookup, hk, hk0, ih]

theorem mapIndex_mapAssign_same (m : List (String × Int)) (k : String) (v : Int) :
    mapIndex (mapAssign m k v) k = v := by
  simp [mapIndex, mapLookup_mapAssign_same]

theorem mapIndex_mapAssign_other (m : List (String × Int)) (k k0 : String) (v : Int)
    (hne : k0 ≠ k) : mapIndex (mapAssign m k v) k0 = mapIndex m k0 := by
  simp [mapIndex, mapLookup_mapAssign_other m k k0 v hne]

theorem wrapInt_of_inRange (x : Int) (hlo : minInt ≤ x) (hhi : x ≤ maxInt) : wrapInt x = x := by
  unfold minInt at hlo
  unfold maxInt at hhi
  unfold wrapInt
  rw [Int.emod_eq_of_lt (by omega) (by omega)]
  omega

theorem wrapInt_succ (x : Int) : wrapInt (wrapInt x + 1) = wrapInt (x + 1) := by
  unfold wrapInt
  have h : ((x + 2 ^ 63) % 2 ^ 64 - 2 ^ 63 + 1 + 2 ^ 63) % (2 ^ 64 : Int)
      = (x + 1 + 2 ^ 63) % 2 ^ 64 := by
    have e1 : (x + 2 ^ 63) % 2 ^ 64 - 2 ^ 63 + 1 + 2 ^ 63 = (x + 2 ^ 63) % 2 ^ 64 + 1 := by ring
    have e2 : x + 1 + 2 ^ 63 = (x + 2 ^ 63) + 1 := by ring
    rw [e1, e2, Int.emod_add_cancel_right]
    exact Int.emod_emod_of_dvd _ (dvd_refl _)
  rw [h]

/-! ### The tunnel proxy -/

theorem countForHost_newProxy (M : List (String × String)) (h : String) :
    (newProxy M).countForHost h = 0 := rfl

theorem countForHost_countRequest_same (p : proxy) (h : String) :
    (p.countRequest h).countForHost h = wrapInt (p.countForHost h + 1) := by
  simp [proxy.countRequest, proxy.countForHost, mapIndex_mapAssign_same]

theorem countForHost_countRequest_other (p : proxy) (h h0 : String) (hne : h0 ≠ h) :
    (p.countRequest h).countForHost h0 = p.countForHost h0 := by
  simp [proxy.countRequest, proxy.countForHost, mapIndex_mapAssign_other _ _ _ _ hne]

theorem countForHost_iterate (M : List (String × String)) (h : String) (N : Nat) :
    ((fun q : proxy => q.countRequest h)^[N] (newProxy M)).countForHost h
      = wrapInt (N : Int) := by
  induction N with
  | zero => simp [countForHost_newProxy, wrapInt]
  | succ n ih =>
    rw [Function.iterate_succ_apply', countForHost_countRequest_same, ih, wrapInt_succ]
    push_cast
    rfl

theorem tunnelConnection_state (p : proxy) (w : Peer) (r : Request) :
    (p.tunnelConnection w r).1 =
      if (w.dial (p.resolveHost r)).isNone && w.hijacker then p.countRequest (p.resolveHost r)
      else p := by
  unfold proxy.tunnelConnection proxy.resolveHost
  cases hm : mapLookup p.hostMappings r.Host <;>
    simp only [Option.getD_some, Option.getD_none] <;>
    split <;> cases hh : w.hijacker <;> simp_all

theorem tunnelConnection_trace_head (p : proxy) (w : Peer) (r : Request) :
    (p.tunnelConnection w r).2.head? = some (Effect.dial (p.resolveHost r)) := by
  unfold proxy.tunnelConnection proxy.resolveHost
  cases hm : mapLookup p.hostMappings r.Host <;>
    simp only [Option.getD_some, Option.getD_none] <;>
    split <;> cases hh : w.hijacker <;> simp_all

theorem tunnelConnection_trace_hosts (p : proxy) (w : Peer) (r : Request) (h : String) :
    (Effect.dial h ∈ (p.tunnelConnection w r).2 → h = p.resolveHost r) ∧
    (Effect.countRequest h ∈ (p.tunnelConnection w r).2 → h = p.resolveHost r) := by
  unfold proxy.tunnelConnection proxy.resolveHost
  cases hm : mapLookup p.hostMappings r.Host <;>
    simp only [Option.getD_some, Option.getD_none] <;>
    split <;> cases hh : w.hijacker <;> cases hj : w.hijack <;> simp_all

/-! ### Claims on the tunnel proxy -/

/-- C5 (as amended): a fresh proxy counts 0 for every host; after N sequential
`countRequest(h)` calls on it, with N at most the largest `int`, `countForHost(h)` is N;
one `countRequest(h)` on a state whose count for h is an `int` below the largest one raises
it by exactly 1; and in every state `countRequest(h)` leaves the count of every other host
and the host mappings unchanged. -/
theorem countRequest_counts (M : List (String × String)) (h : String) (N : Nat)
    (hN : (N : Int) ≤ maxInt) :
    (newProxy M).countForHost h = 0 ∧
    ((fun q : proxy => q.countRequest h)^[N] (newProxy M)).countForHost h = (N : Int) ∧
    (∀ p : proxy, minInt ≤ p.countForHost h → p.countForHost h < maxInt →
      (p.countRequest h).countForHost h = p.countForHost h + 1) ∧
    (∀ (p : proxy) (h0 : String), h0 ≠ h →
      (p.countRequest h).countForHost h0 = p.countForHost h0) ∧
    (∀ p : proxy, (p.countRequest h).hostMappings = p.hostMappings) := by
  refine ⟨rfl, ?_, ?_, ?_, ?_⟩
  · rw [countForHost_iterate]
    exact wrapInt_of_inRange _ (by unfold minInt; omega) hN
  · intro p hlo hhi
    rw [countForHost_countRequest_same]
    exact wrapInt_of_inRange _ (by omega) (by omega)
  · intro p h0 hne
    exact countForHost_countRequest_other p h h0 hne
  · intro p
    rfl

/-- Witness of C5 (as amended): three requests to one host on a fresh proxy with the
mapping of the proxy test, and one more request on a proxy that has counted 41. -/
theorem countRequest_counts_witness :
    ((3 : Nat) : Int) ≤ maxInt ∧
    ((fun q : proxy => q.countRequest "127.0.0.1:8443")^[3]
      (newProxy [("example.com:443", "127.0.0.1:8443")])).countForHost "127.0.0.1:8443"
        = ((3 : Nat) : Int) ∧
    (({ proxied := [("127.0.0.1:8443", 41)], hostMappings := [] } : proxy).countRequest
      "127.0.0.1:8443").countForHost "127.0.0.1:8443" =
        ({ proxied := [("127.0.0.1:8443", 41)], hostMappings := [] } : proxy).countForHost
          "127.0.0.1:8443" + 1 :=
  ⟨by decide,
    (countRequest_counts [("example.com:443", "127.0.0.1:8443")] "127.0.0.1:8443" 3
      (by decide)).2.1,
    (countRequest_counts [] "127.0.0.1:8443" 0 (by decide)).2.2.1
      { proxied := [("127.0.0.1:8443", 41)], hostMappings := [] } (by decide) (by decide)⟩

/-- C5 (as stated) fails: after 2^63 sequential `countRequest` calls on a fresh proxy the
count of the host is not 2^63, and on a state whose count is the largest `int` one more
`countRequest` does not raise the count by 1. -/
theorem countRequest_wraps :
    ((fun q : proxy => q.countRequest "example.com:443")^[2 ^ 63]
      (newProxy [])).countForHost "example.com:443" ≠ ((2 ^ 63 : Nat) : Int) ∧
    (({ proxied := [("example.com:443", maxInt)], hostMappings := [] } : proxy).countRequest
      "example.com:443").countForHost "example.com:443" ≠ maxInt + 1 := by
  constructor
  · rw [countForHost_iterate]
    unfold wrapInt
    norm_num
  · rw [countForHost_countRequest_same]
    simp [proxy.countForHost, mapIndex, mapLookup, wrapInt, maxInt]

/-- C6: a request whose method is not CONNECT is answered by `handleProxy` with the single
effect `http.Error(405)`, so without any dial or hijack, and leaves the proxy, hence every
per-host counter, unchanged; a CONNECT request is handed to `tunnelConnection`. -/
theorem handleProxy_by_method (p : proxy) (w : Peer) (r : Request) :
    (r.Method ≠ MethodConnect →
      p.handleProxy w r = (p, [Effect.httpError "Only supports CONNECT" 405]) ∧
      (∀ e ∈ (p.handleProxy w r).2, e.entersTunnel = false) ∧
      (∀ h : String, (p.handleProxy w r).1.countForHost h = p.countForHost h)) ∧
    (r.Method = MethodConnect → p.handleProxy w r = p.tunnelConnection w r) := by
  constructor
  · intro hm
    have e : p.handleProxy w r = (p, [Effect.httpError "Only supports CONNECT" 405]) := by
      simp [proxy.handleProxy, hm, StatusMethodNotAllowed]
    refine ⟨e, ?_, ?_⟩
    · rw [e]
      intro x hx
      simp at hx
      subst hx
      rfl
    · intro h
      rw [e]
  · intro hm
    simp [proxy.handleProxy, hm]

/-- Witness of C6: a GET and a CONNECT request to a proxy that has counted one request. -/
theorem handleProxy_by_method_witness :
    (({ Method := "GET", Host := "example.com:443" } : Request).Method ≠ MethodConnect ∧
      ∀ h : String,
        ((({ proxied := [("example.com:443", 1)], hostMappings := [] } : proxy).handleProxy
          { dial := fun _ => none, hijacker := true, hijack := none }
          { Method := "GET", Host := "example.com:443" }).1).countForHost h
        = ({ proxied := [("example.com:443", 1)], hostMappings := [] } : proxy).countForHost
            h) ∧
    (({ Method := "CONNECT", Host := "example.com:443" } : Request).Method = MethodConnect ∧
      ({ proxied := [("example.com:443", 1)], hostMappings := [] } : proxy).handleProxy
          { dial := fun _ => none, hijacker := true, hijack := none }
          { Method := "CONNECT", Host := "example.com:443" }
        = ({ proxied := [("example.com:443", 1)], hostMappings := [] } : proxy).tunnelConnection
          { dial := fun _ => none, hijacker := true, hijack := none }
          { Method := "CONNECT", Host := "example.com:443" }) :=
  ⟨⟨by decide,
      ((handleProxy_by_method _ _ _).1 (by decide)).2.2⟩,
    ⟨by decide, (handleProxy_by_method _ _ _).2 (by decide)⟩⟩

/-- C8 at the failing input: a CONNECT request whose dial succeeds and whose response writer
supports hijacking but whose `Hijack()` returns an error is not successfully tunnelled, yet
`tunnelConnection` reports the error and goes on to count the request. -/
theorem tunnelConnection_counts_failed_hijack :
    tunnelled (newProxy [])
      { dial := fun _ => none, hijacker := true, hijack := some "hijack failed" }
      { Method := "CONNECT", Host := "example.com:443" } = false ∧
    ((newProxy []).tunnelConnection
      { dial := fun _ => none, hijacker := true, hijack := some "hijack failed" }
      { Method := "CONNECT", Host := "example.com:443" }).1.countForHost "example.com:443" = 1 ∧
    ((newProxy []).tunnelConnection
      { dial := fun _ => none, hijacker := true, hijack := some "hijack failed" }
      { Method := "CONNECT", Host := "example.com:443" }).2 =
      [Effect.dial "example.com:443", Effect.writeHeader 200, Effect.hijack,
       Effect.httpError "hijack failed" 503, Effect.countRequest "example.com:443",
       Effect.relay "example.com:443" false] := by
  refine ⟨by decide, by decide, by decide⟩

/-- C9: the host `tunnelConnection` dials and the key under which it counts are both the
resolved host, which is M[r] when the requested host r is a key of the mapping table M and
r otherwise; with M mapping example.com:443 to s, one tunnelled request to example.com:443
on a fresh proxy leaves the count of s at 1 and, when s differs, that of example.com:443
at 0. -/
theorem tunnelConnection_resolved_host (p : proxy) (w : Peer) (r : Request) (s : String) :
    (∀ m : String, mapLookup p.hostMappings r.Host = some m → p.resolveHost r = m) ∧
    (mapLookup p.hostMappings r.Host = none → p.resolveHost r = r.Host) ∧
    (p.tunnelConnection w r).2.head? = some (Effect.dial (p.resolveHost r)) ∧
    (∀ h : String, Effect.dial h ∈ (p.tunnelConnection w r).2 → h = p.resolveHost r) ∧
    (∀ h : String, Effect.countRequest h ∈ (p.tunnelConnection w r).2 → h = p.resolveHost r) ∧
    (tunnelled p w r = true →
      (p.tunnelConnection w r).1 = p.countRequest (p.resolveHost r) ∧
      Effect.countRequest (p.resolveHost r) ∈ (p.tunnelConnection w r).2) ∧
    (tunnelled (newProxy [("example.com:443", s)]) w
        { Method := MethodConnect, Host := "example.com:443" } = true →
      ((newProxy [("example.com:443", s)]).tunnelConnection w
        { Method := MethodConnect, Host := "example.com:443" }).1.countForHost s = 1 ∧
      (s ≠ "example.com:443" →
        ((newProxy [("example.com:443", s)]).tunnelConnection w
          { Method := MethodConnect, Host := "example.com:443" }).1.countForHost
            "example.com:443" = 0)) := by
  have hstate : ∀ (q : proxy) (x : Request), tunnelled q w x = true →
      (q.tunnelConnection w x).1 = q.countRequest (q.resolveHost x) := by
    intro q x ht
    rw [tunnelConnection_state]
    simp only [tunnelled, Bool.and_eq_true] at ht
    simp [ht.1.1, ht.1.2]
  refine ⟨?_, ?_, tunnelConnection_trace_head p w r,
    fun h => (tunnelConnection_trace_hosts p w r h).1,
    fun h => (tunnelConnection_trace_hosts p w r h).2, ?_, ?_⟩
  · intro m hm
    simp [proxy.resolveHost, hm]
  · intro hm
    simp [proxy.resolveHost, hm]
  · intro ht
    refine ⟨hstate p r ht, ?_⟩
    simp only [tunnelled, Bool.and_eq_true, Option.isNone_iff_eq_none] at ht
    obtain ⟨⟨hd, hh⟩, hj⟩ := ht
    unfold proxy.resolveHost at hd
    unfold proxy.tunnelConnection proxy.resolveHost
    cases hm : mapLookup p.hostMappings r.Host <;>
      simp only [hm, Option.getD_some, Option.getD_none] at hd ⊢ <;>
      simp [hd, hh, hj]
  · intro ht
    have hres : (newProxy [("example.com:443", s)]).resolveHost
        { Method := MethodConnect, Host := "example.com:443" } = s := by
      simp [proxy.resolveHost, newProxy, mapLookup]
    rw [hstate _ _ ht, hres]
    constructor
    · rw [countForHost_countRequest_same, countForHost_newProxy]
      decide
    · intro hne
      rw [countForHost_countRequest_other _ _ _ (Ne.symm hne), countForHost_newProxy]

/-- Witness of C9: the mapping of the proxy test, example.com:443 to the loopback server. -/
theorem tunnelConnection_resolved_host_witness :
    tunnelled (newProxy [("example.com:443", "127.0.0.1:8443")])
        { dial := fun _ => none, hijacker := true, hijack := none }
        { Method := MethodConnect, Host := "example.com:443" } = true ∧
    "127.0.0.1:8443" ≠ "example.com:443" ∧
    ((newProxy [("example.com:443", "127.0.0.1:8443")]).tunnelConnection
        { dial := fun _ => none, hijacker := true, hijack := none }
        { Method := MethodConnect, Host := "example.com:443" }).1.countForHost
          "127.0.0.1:8443" = 1 ∧
    ((newProxy [("example.com:443", "127.0.0.1:8443")]).tunnelConnection
        { dial := fun _ => none, hijacker := true, hijack := none }
        { Method := MethodConnect, Host := "example.com:443" }).1.countForHost
          "example.com:443" = 0 :=
  ⟨by decide, by decide,
    ((tunnelConnection_resolved_host (newProxy [("example.com:443", "127.0.0.1:8443")])
      { dial := fun _ => none, hijacker := true, hijack := none }
      { Method := MethodConnect, Host := "example.com:443" } "127.0.0.1:8443").2.2.2.2.2.2
        (by decide)).1,
    ((tunnelConnection_resolved_host (newProxy [("example.com:443", "127.0.0.1:8443")])
      { dial := fun _ => none, hijacker := true, hijack := none }
      { Method := MethodConnect, Host := "example.com:443" } "127.0.0.1:8443").2.2.2.2.2.2
        (by decide)).2 (by decide)⟩

/-! ### Health checks -/

theorem foldl_append_singleton {α β : Type} (f : α → β) (xs : List α) (acc : List β) :
    xs.foldl (fun m x => m ++ [f x]) acc = acc ++ xs.map f := by
  induction xs generalizing acc with
  | nil => simp
  | cons x rest ih => simp [ih]

theorem MachineHealthCheckForWorkers_eq_map (d : Deps) (cluster : Cluster) (u t : Duration) :
    MachineHealthCheckForWorkers d cluster u t =
      cluster.Spec.WorkerNodeGroupConfigurations.map
        (fun g => machineHealthCheckForWorker d cluster g u t) := by
  simp [MachineHealthCheckForWorkers, foldl_append_singleton]

theorem MachineHealthCheckObjects_eq_append (d : Deps) (cluster : Cluster) (u t : Duration) :
    MachineHealthCheckObjects d cluster u t =
      MachineHealthCheckForWorkers d cluster u t ++
        [MachineHealthCheckForControlPlane d cluster u t] := by
  have h := foldl_append_singleton (fun x : MachineHealthCheck => x)
    (MachineHealthCheckForWorkers d cluster u t) []
  simp only [MachineHealthCheckObjects]
  rw [h]
  simp

theorem Parse_maxUnhealthyWorker : intstr.Parse maxUnhealthyWorker = intstr.FromString "40%" := by
  decide

theorem Parse_maxUnhealthyControlPlane :
    intstr.Parse maxUnhealthyControlPlane = intstr.FromString "100%" := by
  decide

theorem machineHealthCheckForWorker_spec (d : Deps) (cluster : Cluster)
    (g : WorkerNodeGroupConfiguration) (u t : Duration) :
    (machineHealthCheckForWorker d cluster g u t).Spec =
      { ClusterName := d.ClusterName cluster,
        Selector :=
          { MatchLabels := [(d.MachineDeploymentNameLabel, d.MachineDeploymentName cluster g)] },
        NodeStartupTimeout := some t,
        UnhealthyConditions :=
          [ { «Type» := corev1.NodeReady, Status := corev1.ConditionUnknown, Timeout := u },
            { «Type» := corev1.NodeReady, Status := corev1.ConditionFalse, Timeout := u } ],
        MaxUnhealthy := some (intstr.FromString "40%") } := by
  simp [machineHealthCheckForWorker, machineHealthCheck, MachineHealthCheck.SetName,
    MachineHealthCheck.setMatchLabel, MachineHealthCheck.setMaxUnhealthy, mapAssign,
    Parse_maxUnhealthyWorker]

theorem MachineHealthCheckForControlPlane_spec (d : Deps) (cluster : Cluster)
    (u t : Duration) :
    (MachineHealthCheckForControlPlane d cluster u t).Spec =
      { ClusterName := d.ClusterName cluster,
        Selector := { MatchLabels := [(d.MachineControlPlaneLabel, "")] },
        NodeStartupTimeout := some t,
        UnhealthyConditions :=
          [ { «Type» := corev1.NodeReady, Status := corev1.ConditionUnknown, Timeout := u },
            { «Type» := corev1.NodeReady, Status := corev1.ConditionFalse, Timeout := u } ],
        MaxUnhealthy := some (intstr.FromString "100%") } := by
  simp [MachineHealthCheckForControlPlane, machineHealthCheck, MachineHealthCheck.SetName,
    MachineHealthCheck.setMatchLabel, MachineHealthCheck.setMaxUnhealthy, mapAssign,
    Parse_maxUnhealthyControlPlane]

theorem MachineHealthCheckObjects_getElem_worker (d : Deps) (cluster : Cluster)
    (u t : Duration) (i : Nat) (g : WorkerNodeGroupConfiguration)
    (hg : cluster.Spec.WorkerNodeGroupConfigurations[i]? = some g) :
    (MachineHealthCheckObjects d cluster u t)[i]? =
      some (machineHealthCheckForWorker d cluster g u t) := by
  have hi : i < cluster.Spec.WorkerNodeGroupConfigurations.length := by
    by_contra hc
    rw [List.getElem?_eq_none (by omega)] at hg
    cases hg
  rw [MachineHealthCheckObjects_eq_append, MachineHealthCheckForWorkers_eq_map,
    List.getElem?_append_left (by simpa using hi), List.getElem?_map, hg]
  rfl

theorem MachineHealthCheckObjects_getElem_controlPlane (d : Deps) (cluster : Cluster)
    (u t : Duration) :
    (MachineHealthCheckObjects d cluster u t)[
        cluster.Spec.WorkerNodeGroupConfigurations.length]? =
      some (MachineHealthCheckForControlPlane d cluster u t) := by
  rw [MachineHealthCheckObjects_eq_append, MachineHealthCheckForWorkers_eq_map,
    List.getElem?_append_right (by simp)]
  simp

/-! ### Claims on the health checks -/

/-- C7: for a cluster with n worker node groups `MachineHealthCheckObjects` returns n+1
objects; the first n are the output of `MachineHealthCheckForWorkers`, which holds one
health check per worker node group in the order of the groups, and the last one, at index
n, is the output of `MachineHealthCheckForControlPlane`. -/
theorem MachineHealthCheckObjects_layout (d : Deps) (cluster : Cluster) (u t : Duration) :
    (MachineHealthCheckObjects d cluster u t).length =
      cluster.Spec.WorkerNodeGroupConfigurations.length + 1 ∧
    (MachineHealthCheckObjects d cluster u t).take
        cluster.Spec.WorkerNodeGroupConfigurations.length =
      MachineHealthCheckForWorkers d cluster u t ∧
    (MachineHealthCheckForWorkers d cluster u t).length =
      cluster.Spec.WorkerNodeGroupConfigurations.length ∧
    (∀ (i : Nat) (g : WorkerNodeGroupConfiguration),
      cluster.Spec.WorkerNodeGroupConfigurations[i]? = some g →
        (MachineHealthCheckForWorkers d cluster u t)[i]? =
          some (machineHealthCheckForWorker d cluster g u t) ∧
        (MachineHealthCheckObjects d cluster u t)[i]? =
          some (machineHealthCheckForWorker d cluster g u t)) ∧
    (MachineHealthCheckObjects d cluster u t)[
        cluster.Spec.WorkerNodeGroupConfigurations.length]? =
      some (MachineHealthCheckForControlPlane d cluster u t) ∧
    (MachineHealthCheckObjects d cluster u t).getLast? =
      some (MachineHealthCheckForControlPlane d cluster u t) := by
  have hlen : (MachineHealthCheckForWorkers d cluster u t).length =
      cluster.Spec.WorkerNodeGroupConfigurations.length := by
    simp [MachineHealthCheckForWorkers_eq_map]
  refine ⟨?_, ?_, hlen, ?_, MachineHealthCheckObjects_getElem_controlPlane d cluster u t, ?_⟩
  · rw [MachineHealthCheckObjects_eq_append, List.length_append, hlen]
    rfl
  · rw [MachineHealthCheckObjects_eq_append, ← hlen, List.take_left]
  · intro i g hg
    refine ⟨?_, MachineHealthCheckObjects_getElem_worker d cluster u t i g hg⟩
    rw [MachineHealthCheckForWorkers_eq_map, List.getElem?_map, hg]
    rfl
  · rw [MachineHealthCheckObjects_eq_append]
    simp

/-- Witness of C7: the second worker node group of the sample cluster. -/
theorem MachineHealthCheckObjects_layout_witness :
    sampleCluster.Spec.WorkerNodeGroupConfigurations[1]? = some { Name := "md-1" } ∧
    (MachineHealthCheckObjects sampleDeps sampleCluster 300 600)[1]? =
      some (machineHealthCheckForWorker sampleDeps sampleCluster { Name := "md-1" } 300 600) :=
  ⟨by decide,
    ((MachineHealthCheckObjects_layout sampleDeps sampleCluster 300 600).2.2.2.1 1
      { Name := "md-1" } (by decide)).2⟩

/-- C10: every health check returned by `MachineHealthCheckObjects` has NodeStartupTimeout
equal to nodeStartupTimeout and exactly the two unhealthy conditions NodeReady=Unknown and
NodeReady=False, in this order, both with timeout unhealthyTimeout; the health check of
each worker node group has MaxUnhealthy "40%" and the single selector label
machine-deployment-name, valued `MachineDeploymentName` of the group; the control plane
health check has MaxUnhealthy "100%" and the single selector label control-plane with the
empty value. -/
theorem MachineHealthCheckObjects_fields (d : Deps) (cluster : Cluster) (u t : Duration) :
    (∀ mhc ∈ MachineHealthCheckObjects d cluster u t,
      mhc.Spec.NodeStartupTimeout = some t ∧
      mhc.Spec.UnhealthyConditions =
        [ { «Type» := corev1.NodeReady, Status := corev1.ConditionUnknown, Timeout := u },
          { «Type» := corev1.NodeReady, Status := corev1.ConditionFalse, Timeout := u } ]) ∧
    (∀ (i : Nat) (g : WorkerNodeGroupConfiguration),
      cluster.Spec.WorkerNodeGroupConfigurations[i]? = some g →
        ∃ mhc, (MachineHealthCheckObjects d cluster u t)[i]? = some mhc ∧
          mhc.Spec.MaxUnhealthy = some (intstr.FromString "40%") ∧
          mhc.Spec.Selector.MatchLabels =
            [(d.MachineDeploymentNameLabel, d.MachineDeploymentName cluster g)]) ∧
    (∃ mhc, (MachineHealthCheckObjects d cluster u t)[
          cluster.Spec.WorkerNodeGroupConfigurations.length]? = some mhc ∧
        mhc.Spec.MaxUnhealthy = some (intstr.FromString "100%") ∧
        mhc.Spec.Selector.MatchLabels = [(d.MachineControlPlaneLabel, "")]) := by
  refine ⟨?_, ?_, ?_⟩
  · intro mhc hm
    rw [MachineHealthCheckObjects_eq_append, MachineHealthCheckForWorkers_eq_map,
      List.mem_append, List.mem_map, List.mem_singleton] at hm
    rcases hm with ⟨g, _, rfl⟩ | rfl
    · rw [machineHealthCheckForWorker_spec]
      exact ⟨rfl, rfl⟩
    · rw [MachineHealthCheckForControlPlane_spec]
      exact ⟨rfl, rfl⟩
  · intro i g hg
    refine ⟨_, MachineHealthCheckObjects_getElem_worker d cluster u t i g hg, ?_⟩
    rw [machineHealthCheckForWorker_spec]
    exact ⟨rfl, rfl⟩
  · refine ⟨_, MachineHealthCheckObjects_getElem_controlPlane d cluster u t, ?_⟩
    rw [MachineHealthCheckForControlPlane_spec]
    exact ⟨rfl, rfl⟩

/-- Witness of C10: the first worker node group of the sample cluster. -/
theorem MachineHealthCheckObjects_fields_witness :
    sampleCluster.Spec.WorkerNodeGroupConfigurations[0]? = some { Name := "md-0" } ∧
    ∃ mhc, (MachineHealthCheckObjects sampleDeps sampleCluster 300 600)[0]? = some mhc ∧
      mhc.Spec.MaxUnhealthy = some (intstr.FromString "40%") ∧
      mhc.Spec.Selector.MatchLabels =
        [(sampleDeps.MachineDeploymentNameLabel,
          sampleDeps.MachineDeploymentName sampleCluster { Name := "md-0" })] :=
  ⟨by decide,
    (MachineHealthCheckObjects_fields sampleDeps sampleCluster 300 600).2.1 0
      { Name := "md-0" } (by decide)⟩

/-! ### The Reader -/

theorem foldl_applyTo_bundledFS (opts : List ReaderOption) (r0 : Reader)
    (hopts : ∀ o ∈ opts, o.isEmbedFS = false) :
    (opts.foldl ReaderOption.applyTo r0).bundledFS = r0.bundledFS := by
  induction opts generalizing r0 with
  | nil => rfl
  | cons o rest ih =>
    have ho : o.isEmbedFS = false := hopts o (List.mem_cons_self _ _)
    have hrest : ∀ x ∈ rest, x.isEmbedFS = false :=
      fun x hx => hopts x (List.mem_cons_of_mem _ hx)
    rw [List.foldl_cons, ih _ hrest]
    cases o with
    | WithEmbedFS fs => simp [ReaderOption.isEmbedFS] at ho
    | WithRootCACerts certs => rfl
    | WithNonCachedProxyConfig => rfl

theorem NewReader_bundledFS_none (opts : List ReaderOption)
    (hopts : ∀ o ∈ opts, o.isEmbedFS = false) : (NewReader opts).bundledFS = none := by
  unfold NewReader
  rw [foldl_applyTo_bundledFS opts _ hopts]

theorem getSchemeFrom_no_colon (raw seen l : List Char) (h : ':' ∉ l) :
    getSchemeFrom raw seen l = some ([], raw) := by
  induction l generalizing seen with
  | nil => rfl
  | cons c cs ih =>
    have hc : c ≠ ':' := fun e => h (by simp [e])
    have hcs : ':' ∉ cs := fun e => h (List.mem_cons_of_mem _ e)
    simp only [getSchemeFrom]
    split_ifs with h1 h2 h3 h4 h5
    · exact ih _ hcs
    · rfl
    · exact ih _ hcs
    · simp at h4
      exact absurd h4 hc
    · simp at h4
      exact absurd h4 hc
    · rfl

theorem takeWhile_ne_of_not_mem (c : Char) (l : List Char) (h : c ∉ l) :
    l.takeWhile (fun x => x != c) = l := by
  rw [List.takeWhile_eq_self_iff]
  intro x hx
  simp only [bne_iff_ne, ne_eq]
  intro e
  exact h (e ▸ hx)

theorem validEscapes_slash (u : List Char) : validEscapes ('/' :: u) = validEscapes u := by
  rcases u with _ | ⟨a, _ | ⟨b, r⟩⟩ <;> simp [validEscapes]

theorem getScheme_embed (t : List Char) :
    getScheme ('e' :: 'm' :: 'b' :: 'e' :: 'd' :: ':' :: t) =
      some (['e', 'm', 'b', 'e', 'd'], t) := by
  have ha : ∀ c : Char, c ∈ ['e', 'm', 'b', 'd'] → c.isAlpha = true := by decide
  have hcol : Char.isAlpha ':' = false := by decide
  have hdig : Char.isDigit ':' = false := by decide
  simp [getScheme, getSchemeFrom, ha, hcol, hdig]

theorem parseNoFragment_plain (u : List Char) (hcolon : ':' ∉ u) (hq : '?' ∉ u)
    (hstar : '*' ∉ u) (hslash : u.head? ≠ some '/') :
    parseNoFragment u =
      if u.any isCTL then none else if validEscapes u then some [] else none := by
  have hne : (u == ['*']) = false := by
    cases h : (u == ['*'])
    · rfl
    · exfalso
      have : u = ['*'] := by simpa using h
      exact hstar (by simp [this])
  have hhead : (u.head? != some '/') = true := by simpa using hslash
  have hseg : (u.takeWhile (fun x => x != '/')).contains ':' = false := by
    cases h : (u.takeWhile (fun x => x != '/')).contains ':'
    · rfl
    · exfalso
      have hm : ':' ∈ u.takeWhile (fun x => x != '/') := by simpa using h
      exact hcolon ((List.takeWhile_sublist _).subset hm)
  have htake : (u.take 2 == ['/', '/']) = false := by
    cases u with
    | nil => rfl
    | cons c cs =>
      have hc : c ≠ '/' := by simpa using hslash
      cases cs <;> simp [hc]
  unfold parseNoFragment
  simp only [hne, getScheme, getSchemeFrom_no_colon u [] u hcolon,
    takeWhile_ne_of_not_mem '?' u hq, hhead, hseg, parseTail, htake]
  simp

theorem parseNoFragment_embed (u : List Char) (hq : '?' ∉ u) :
    parseNoFragment ('e' :: 'm' :: 'b' :: 'e' :: 'd' :: ':' :: '/' :: '/' :: '/' :: u) =
      if u.any isCTL then none
      else if validEscapes u then some ['e', 'm', 'b', 'e', 'd'] else none := by
  have hctl : ∀ c : Char, c ∈ ['e', 'm', 'b', 'd', ':', '/'] → isCTL c = false := by decide
  have hauth : parseAuthority [] = true := by decide
  unfold parseNoFragment
  simp only [getScheme_embed]
  simp [hctl, List.takeWhile, List.dropWhile, takeWhile_ne_of_not_mem '?' u hq, parseTail,
    hauth, validEscapes_slash]

theorem parseNoFragment_embed_scheme (t s : List Char)
    (h : parseNoFragment ('e' :: 'm' :: 'b' :: 'e' :: 'd' :: ':' :: t) = some s) :
    s = ['e', 'm', 'b', 'e', 'd'] := by
  unfold parseNoFragment at h
  simp only [getScheme_embed] at h
  split_ifs at h <;> simp_all

theorem toList_embed_colon (path : String) :
    ("embed:" ++ path).toList = 'e' :: 'm' :: 'b' :: 'e' :: 'd' :: ':' :: path.toList := by
  simp [String.toList, String.data_append]

theorem toList_embed_slashes (p : String) :
    ("embed:///" ++ p).toList =
      'e' :: 'm' :: 'b' :: 'e' :: 'd' :: ':' :: '/' :: '/' :: '/' :: p.toList := by
  simp [String.toList, String.data_append]

theorem parseURI_embed_scheme (path : String) (v : URI)
    (h : parseURI ("embed:" ++ path) = some v) : v.scheme = "embed" := by
  unfold parseURI at h
  have hpre : (("embed:" ++ path).toList.takeWhile (fun x => x != '#')) =
      'e' :: 'm' :: 'b' :: 'e' :: 'd' :: ':' :: path.toList.takeWhile (fun x => x != '#') := by
    rw [toList_embed_colon]
    simp [List.takeWhile]
  rw [hpre] at h
  cases hs : parseNoFragment
      ('e' :: 'm' :: 'b' :: 'e' :: 'd' :: ':' :: path.toList.takeWhile (fun x => x != '#')) with
  | none => rw [hs] at h; cases h
  | some s =>
    rw [hs] at h
    have hse := parseNoFragment_embed_scheme _ s hs
    subst hse
    simp only at h
    split_ifs at h with h1 h2
    · exact absurd h2 (by decide)
    · cases h
      rfl

theorem validEmbedName_facts (p : String) (h : validEmbedName p = true) :
    ':' ∉ p.toList ∧ '?' ∉ p.toList ∧ '*' ∉ p.toList ∧ p.toList.head? ≠ some '/' := by
  simp only [validEmbedName, Bool.and_eq_true, List.all_eq_true] at h
  obtain ⟨helems, hchars⟩ := h
  refine ⟨?_, ?_, ?_, ?_⟩
  · intro hm
    exact absurd (hchars _ hm) (by decide)
  · intro hm
    exact absurd (hchars _ hm) (by decide)
  · intro hm
    exact absurd (hchars _ hm) (by decide)
  · intro hh
    cases hl : p.toList with
    | nil => rw [hl] at hh; simp at hh
    | cons c cs =>
      rw [hl] at hh helems
      have hc : c = '/' := by simpa using hh
      subst hc
      simp [validElems] at helems

theorem parseURI_of_embed_name (p : String) (hvalid : validEmbedName p = true)
    (hparse : parseURI p ≠ none) :
    parseURI p = some { scheme := "", rest := p } ∧
    parseURI ("embed:///" ++ p) = some { scheme := "embed", rest := "///" ++ p } := by
  obtain ⟨hcolon, hq, hstar, hslash⟩ := validEmbedName_facts p hvalid
  have hsub : ∀ c : Char, c ∈ p.toList.takeWhile (fun x => x != '#') → c ∈ p.toList :=
    fun c hc => (List.takeWhile_sublist _).subset hc
  have hcolon' : ':' ∉ p.toList.takeWhile (fun x => x != '#') := fun hm => hcolon (hsub _ hm)
  have hq' : '?' ∉ p.toList.takeWhile (fun x => x != '#') := fun hm => hq (hsub _ hm)
  have hstar' : '*' ∉ p.toList.takeWhile (fun x => x != '#') := fun hm => hstar (hsub _ hm)
  have hslash' : (p.toList.takeWhile (fun x => x != '#')).head? ≠ some '/' := by
    cases hl : p.toList with
    | nil => simp
    | cons c cs =>
      rw [hl] at hslash
      have hc : c ≠ '/' := by simpa using hslash
      by_cases hx : c = '#'
      · simp [List.takeWhile, hx]
      · have hb : (c != '#') = true := by simpa using hx
        simp [List.takeWhile, hb, hc]
  have hplain := parseNoFragment_plain _ hcolon' hq' hstar' hslash'
  have hembed := parseNoFragment_embed _ hq'
  have hpre : (("embed:///" ++ p).toList.takeWhile (fun x => x != '#')) =
      'e' :: 'm' :: 'b' :: 'e' :: 'd' :: ':' :: '/' :: '/' :: '/' ::
        p.toList.takeWhile (fun x => x != '#') := by
    rw [toList_embed_slashes]
    simp [List.takeWhile]
  have hpost : (("embed:///" ++ p).toList.dropWhile (fun x => x != '#')) =
      p.toList.dropWhile (fun x => x != '#') := by
    rw [toList_embed_slashes]
    simp [List.dropWhile]
  have hmk : String.mk p.toList = p := by
    cases p
    rfl
  have h1 : ¬ (p.toList.takeWhile (fun x => x != '#')).any isCTL = true := by
    intro h1
    apply hparse
    unfold parseURI
    rw [hplain, if_pos h1]
  have h2 : validEscapes (p.toList.takeWhile (fun x => x != '#')) = true := by
    by_contra h2
    apply hparse
    unfold parseURI
    rw [hplain, if_neg h1, if_neg h2]
  have h3 : validEscapes ((p.toList.dropWhile (fun x => x != '#')).drop 1) = true := by
    by_contra h3
    apply hparse
    unfold parseURI
    rw [hplain, if_neg h1, if_pos h2]
    simp only [h3]
    rfl
  have hr : "///" ++ p = String.mk ('/' :: '/' :: '/' :: p.toList) := by
    simp [String.ext_iff, String.data_append, String.toList]
  constructor
  · unfold parseURI
    rw [hplain, if_neg h1, if_pos h2]
    simp only [h3, if_true, List.map_nil, List.isEmpty_nil, hmk]
  · unfold parseURI
    rw [hpre, hpost, hembed, if_neg h1, if_pos h2]
    simp only [h3, if_true]
    rw [toList_embed_slashes, hr]
    rfl

theorem embedPath_of_relative (p : String) (hrel : p.toList.head? ≠ some '/') :
    embedPath { scheme := "embed", rest := "///" ++ p } = p := by
  unfold embedPath
  have hl : ("///" ++ p).toList = '/' :: '/' :: '/' :: p.toList := by
    simp [String.toList, String.data_append]
  simp only [hl]
  cases hp : p.toList with
  | nil =>
    have he : p = "" := by
      cases p
      simp_all [String.toList]
    subst he
    decide
  | cons c cs =>
    rw [hp] at hrel
    have hc : c ≠ '/' := by
      intro h
      apply hrel
      simp [h]
    have he : p = String.mk (c :: cs) := by
      cases p
      simp_all [String.toList]
    have hb : (c == '/') = false := by simpa using hc
    simp [List.dropWhile, hb, he]

/-! ### Claims on the Reader -/

/-- C1: for every URI string that fails URI parsing and every Reader and surroundings,
`ReadFile` returns the MalformedURI error and no bytes. -/
theorem ReadFile_malformed_uri (r : Reader) (w : World) (uri : String)
    (hparse : parseURI uri = none) :
    ReadFile r w uri = Except.error ReadError.MalformedURI ∧
    bytesOf (ReadFile r w uri) = none := by
  have e : ReadFile r w uri = Except.error ReadError.MalformedURI := by
    simp [ReadFile, hparse]
  exact ⟨e, by rw [e]; rfl⟩

/-- Witness of C1: the bare string of the error test, and strings with a bad escape, an
unclosed IP literal, a colon in the first path segment, a space in the host, a port that
is no number and a control character. -/
theorem ReadFile_malformed_uri_witness :
    parseURI ":domain.com/" = none ∧
    (ReadFile (NewReader []) emptyWorld ":domain.com/" =
        Except.error ReadError.MalformedURI ∧
      bytesOf (ReadFile (NewReader []) emptyWorld ":domain.com/") = none) ∧
    ReadFile (NewReader [ReaderOption.WithEmbedFS sampleEmbedFS])
      (localWorld (singleFile "%zz" [1, 2, 3])) "%zz" =
        Except.error ReadError.MalformedURI ∧
    ReadFile (NewReader []) emptyWorld "http://[::1" = Except.error ReadError.MalformedURI ∧
    ReadFile (NewReader []) (localWorld (singleFile "1a:b" [1, 2, 3])) "1a:b" =
      Except.error ReadError.MalformedURI ∧
    ReadFile (NewReader []) emptyWorld "https://exa mple.com/" =
      Except.error ReadError.MalformedURI ∧
    ReadFile (NewReader []) emptyWorld "https://example.com:https/" =
      Except.error ReadError.MalformedURI ∧
    ReadFile (NewReader []) emptyWorld "testdata/file\n.yaml" =
      Except.error ReadError.MalformedURI :=
  ⟨by decide,
    ReadFile_malformed_uri (NewReader []) emptyWorld ":domain.com/" (by decide),
    (ReadFile_malformed_uri _ _ "%zz" (by decide)).1,
    (ReadFile_malformed_uri _ _ "http://[::1" (by decide)).1,
    (ReadFile_malformed_uri _ _ "1a:b" (by decide)).1,
    (ReadFile_malformed_uri _ _ "https://exa mple.com/" (by decide)).1,
    (ReadFile_malformed_uri _ _ "https://example.com:https/" (by decide)).1,
    (ReadFile_malformed_uri _ _ "testdata/file\n.yaml" (by decide)).1⟩

/-- C2: on a Reader built from options none of which is the embedded-filesystem option,
`ReadFile` of a URI whose scheme is `embed` returns the UnsupportedSource error and no
bytes; this covers every well-formed URI that is `embed:` followed by any text, so
whatever path the URI names. -/
theorem ReadFile_embed_without_bundle (opts : List ReaderOption) (w : World) (uri : String)
    (u : URI) (hopts : ∀ o ∈ opts, o.isEmbedFS = false) (hparse : parseURI uri = some u)
    (hscheme : u.scheme = "embed") :
    ReadFile (NewReader opts) w uri = Except.error ReadError.UnsupportedSource ∧
    bytesOf (ReadFile (NewReader opts) w uri) = none ∧
    (∀ path : String, parseURI ("embed:" ++ path) ≠ none →
      ReadFile (NewReader opts) w ("embed:" ++ path) =
        Except.error ReadError.UnsupportedSource) := by
  have hnone := NewReader_bundledFS_none opts hopts
  have e : ReadFile (NewReader opts) w uri = Except.error ReadError.UnsupportedSource := by
    simp [ReadFile, hparse, hscheme, hnone]
  refine ⟨e, by rw [e]; rfl, ?_⟩
  intro path hpath
  cases hv : parseURI ("embed:" ++ path) with
  | none => exact absurd hv hpath
  | some v =>
    have hs := parseURI_embed_scheme path v hv
    simp [ReadFile, hv, hs, hnone]

/-- Witness of C2: the embed URI of the error test on `NewReader()`. -/
theorem ReadFile_embed_without_bundle_witness :
    (∀ o ∈ ([] : List ReaderOption), o.isEmbedFS = false) ∧
    parseURI "embed:///fake-local-file.yaml" =
      some { scheme := "embed", rest := "///fake-local-file.yaml" } ∧
    ReadFile (NewReader []) emptyWorld "embed:///fake-local-file.yaml" =
      Except.error ReadError.UnsupportedSource ∧
    parseURI ("embed:" ++ "other/file.yaml") ≠ none ∧
    ReadFile (NewReader []) emptyWorld ("embed:" ++ "other/file.yaml") =
      Except.error ReadError.UnsupportedSource :=
  ⟨by simp, by decide,
    (ReadFile_embed_without_bundle [] emptyWorld "embed:///fake-local-file.yaml"
      { scheme := "embed", rest := "///fake-local-file.yaml" } (by simp) (by decide)
      rfl).1,
    by decide,
    (ReadFile_embed_without_bundle [] emptyWorld "embed:///fake-local-file.yaml"
      { scheme := "embed", rest := "///fake-local-file.yaml" } (by simp) (by decide)
      rfl).2.2 "other/file.yaml" (by decide)⟩

/-- C3: for every URI without a scheme that names a local path missing from the local
filesystem, `ReadFile` returns the NotFound error and no bytes. -/
theorem ReadFile_missing_local (r : Reader) (w : World) (uri : String) (u : URI)
    (hparse : parseURI uri = some u) (hscheme : u.scheme = "")
    (hmissing : w.localFS uri = LocalEntry.missing) :
    ReadFile r w uri = Except.error ReadError.NotFound ∧
    bytesOf (ReadFile r w uri) = none := by
  have e : ReadFile r w uri = Except.error ReadError.NotFound := by
    simp [ReadFile, hparse, hscheme, hmissing]
  exact ⟨e, by rw [e]; rfl⟩

/-- Witness of C3: the local path of the error test in an empty filesystem. -/
theorem ReadFile_missing_local_witness :
    parseURI "fake-local-file.yaml" = some { scheme := "", rest := "fake-local-file.yaml" } ∧
    emptyWorld.localFS "fake-local-file.yaml" = LocalEntry.missing ∧
    ReadFile (NewReader []) emptyWorld "fake-local-file.yaml" =
      Except.error ReadError.NotFound :=
  ⟨by decide, rfl,
    (ReadFile_missing_local (NewReader []) emptyWorld "fake-local-file.yaml"
      { scheme := "", rest := "fake-local-file.yaml" } (by decide) rfl rfl).1⟩

/-- C4 (as stated) fails: the relative path `testdata/100%.yaml` is held with the same
content by the local and by the bundled filesystem, yet it is malformed as a URI, its
percent sign starting no escape, and `ReadFile` of it returns MalformedURI and no bytes. -/
theorem ReadFile_percent_named_path_malformed :
    validEmbedName "testdata/100%.yaml" = true ∧
    (localWorld (singleFile "testdata/100%.yaml" [1, 2, 3])).localFS "testdata/100%.yaml" =
      LocalEntry.file [1, 2, 3] ∧
    (NewReader [ReaderOption.WithEmbedFS percentFS]).bundledFS.map
      (fun fs => fs.files "testdata/100%.yaml") = some (some [1, 2, 3]) ∧
    ReadFile (NewReader [ReaderOption.WithEmbedFS percentFS])
      (localWorld (singleFile "testdata/100%.yaml" [1, 2, 3])) "testdata/100%.yaml" =
        Except.error ReadError.MalformedURI ∧
    ReadFile (NewReader [ReaderOption.WithEmbedFS percentFS])
      (localWorld (singleFile "testdata/100%.yaml" [1, 2, 3])) "testdata/100%.yaml" ≠
        Except.ok [1, 2, 3] := by
  have hp : parseURI "testdata/100%.yaml" = none := by decide
  have e : ReadFile (NewReader [ReaderOption.WithEmbedFS percentFS])
      (localWorld (singleFile "testdata/100%.yaml" [1, 2, 3])) "testdata/100%.yaml" =
        Except.error ReadError.MalformedURI := by
    simp [ReadFile, hp]
  refine ⟨by decide, by decide, by decide, e, ?_⟩
  rw [e]
  intro h
  cases h

/-- C4 (as amended): for every relative path p that is well formed as a URI, if the local
filesystem holds content b at p and the bundled filesystem of the Reader holds b at p,
then `ReadFile(p)` and `ReadFile("embed:///" + p)` both succeed and both return b; the
embed URI has scheme embed, and the text after the scheme and the leading path separators,
which the embed strategy looks up, is p. -/
theorem ReadFile_roundtrip (r : Reader) (w : World) (fs : EmbedFS) (p : String) (b : Bytes)
    (hfs : r.bundledFS = some fs) (hparse : parseURI p ≠ none)
    (hlocal : w.localFS p = LocalEntry.file b) (hbundled : fs.files p = some b) :
    ReadFile r w p = Except.ok b ∧
    ReadFile r w ("embed:///" ++ p) = Except.ok b ∧
    (∃ u : URI, parseURI ("embed:///" ++ p) = some u ∧ u.scheme = "embed" ∧
      embedPath u = p) := by
  have hvalid := fs.valid p b hbundled
  obtain ⟨hplain, hembed⟩ := parseURI_of_embed_name p hvalid hparse
  have hpath := embedPath_of_relative p (validEmbedName_facts p hvalid).2.2.2
  refine ⟨?_, ?_, ⟨_, hembed, rfl, hpath⟩⟩
  · have h1 : ("" : String) ≠ "embed" := by decide
    have h2 : ("" : String) ≠ "http" := by decide
    have h3 : ("" : String) ≠ "https" := by decide
    simp [ReadFile, hplain, h1, h2, h3, hlocal]
  · simp [ReadFile, hembed, hfs, hpath, hbundled]

/-- Witness of C4 (as amended): the file of the success test, read by its local path and
through the embed scheme. -/
theorem ReadFile_roundtrip_witness :
    parseURI "testdata/file.yaml" ≠ none ∧
    ReadFile (NewReader [ReaderOption.WithEmbedFS sampleEmbedFS])
      (localWorld (singleFile "testdata/file.yaml" [1, 2, 3])) "testdata/file.yaml" =
        Except.ok [1, 2, 3] ∧
    ReadFile (NewReader [ReaderOption.WithEmbedFS sampleEmbedFS])
      (localWorld (singleFile "testdata/file.yaml" [1, 2, 3]))
      ("embed:///" ++ "testdata/file.yaml") = Except.ok [1, 2, 3] :=
  ⟨by decide,
   (ReadFile_roundtrip (NewReader [ReaderOption.WithEmbedFS sampleEmbedFS])
      (localWorld (singleFile "testdata/file.yaml" [1, 2, 3])) sampleEmbedFS
      "testdata/file.yaml" [1, 2, 3] rfl (by decide) (by decide) (by decide)).1,
   (ReadFile_roundtrip (NewReader [ReaderOption.WithEmbedFS sampleEmbedFS])
      (localWorld (singleFile "testdata/file.yaml" [1, 2, 3])) sampleEmbedFS
      "testdata/file.yaml" [1, 2, 3] rfl (by decide) (by decide) (by decide)).2.1⟩

end EksAnywhere
